import Mathlib

/-!
Shallow embedding of the vibe25-worker job-dispatch and ledger backend
(src/vibe25-worker/src/index.ts).

The database tables (devices, jobs, ledger, budgets) are modelled as lists
kept in insertion order; a `SELECT ... LIMIT 1` / `.first()` without an
`ORDER BY` is modelled as `List.find?` over that order (SQLite scans in
rowid order), and an SQL `UPDATE ... WHERE` as `List.map` guarded by the
`WHERE` condition.  JavaScript numbers are modelled as `JSNum`: either a
finite rational or `NaN` (the only non-finite value the claims need).
Request handlers become functions `... → DBState → Result × DBState`;
nondeterministic inputs of the code (`Date.now()`-based ids, timestamps)
are passed as explicit parameters.
-/

/-- A JavaScript number as it appears in a request body: a finite value
(modelled exactly as a rational) or `NaN`. -/
inductive JSNum where
  | fin (q : ℚ)
  | nan
deriving DecidableEq

/-- JavaScript `x || d` for finite numbers: `0` is falsy. -/
def jsOrNum (q d : ℚ) : ℚ := if q = 0 then d else q

/-- JavaScript `Math.round` on an exact rational: round half toward `+∞`. -/
def jsRound (q : ℚ) : ℤ := Rat.floor (q + 1/2)

/-- A row of the `devices` table. -/
structure Device where
  id : String
  user_id : String
  url : String
  cpu_cores : ℚ
  cpu_load : ℚ
  ram_total : ℚ
  ram_used : ℚ
  disk_free : ℚ
  status : String
  last_seen : String
deriving DecidableEq

/-- A row of the `jobs` table (the output column is literally named
`stdoutt` in every SQL statement of the source). -/
structure Job where
  id : String
  requester : String
  device_id : String
  filename : String
  lang : String
  code : String
  status : String
  cost_usd : JSNum
  stdoutt : String
  stderr : String
deriving DecidableEq

/-- A row of the `ledger` table. -/
structure LedgerEntry where
  id : String
  job_id : String
  from_user : String
  to_user : String
  amount_cents : ℚ
  created_at : String
deriving DecidableEq

/-- A row of the `budgets` table. -/
structure Budget where
  user_id : String
  spent_cents : ℚ
  earned_cents : ℚ
deriving DecidableEq

/-- The whole database state; each table is a list in insertion order. -/
structure DBState where
  devices : List Device
  jobs : List Job
  ledger : List LedgerEntry
  budgets : List Budget
deriving DecidableEq

/-- The empty database. -/
def DBState.empty : DBState := ⟨[], [], [], []⟩

/-! ## POST /heartbeat -/

/-- Body of a `POST /heartbeat` request (numeric fields as finite numbers;
a `NaN` resource value would be falsy exactly like `0`, which `0` already
exercises). -/
structure HeartbeatReq where
  user_id : String
  url : String
  cpu_cores : ℚ
  cpu_load : ℚ
  ram_total : ℚ
  ram_used : ℚ
  disk_free : ℚ
  status : String
deriving DecidableEq

inductive HeartbeatRes where
  | missingFields
  | success
deriving DecidableEq

/-- The device row written by a heartbeat: every field from the request,
plus the freshly generated `id` and the current timestamp. -/
def heartbeatRow (freshId now : String) (r : HeartbeatReq) : Device :=
  ⟨freshId, r.user_id, r.url, r.cpu_cores, r.cpu_load, r.ram_total,
   r.ram_used, r.disk_free, r.status, now⟩

/-- Handler `POST /heartbeat`: validates all fields truthy, then either overwrites
every row with the same `user_id` (SQL `UPDATE ... WHERE user_id = ?`) or
inserts a new row. `freshId` models the `Date.now() + random` id and `now`
models `new Date().toISOString()`. -/
def heartbeat (freshId now : String) (r : HeartbeatReq) (s : DBState) :
    HeartbeatRes × DBState :=
  if r.user_id = "" ∨ r.url = "" ∨ r.cpu_cores = 0 ∨ r.cpu_load = 0 ∨
      r.ram_total = 0 ∨ r.ram_used = 0 ∨ r.disk_free = 0 ∨ r.status = "" then
    (HeartbeatRes.missingFields, s)
  else
    match s.devices.find? (fun d => d.user_id == r.user_id) with
    | some _ =>
      (HeartbeatRes.success,
       { s with devices := s.devices.map (fun d =>
           if d.user_id == r.user_id then heartbeatRow freshId now r else d) })
    | none =>
      (HeartbeatRes.success,
       { s with devices := s.devices ++ [heartbeatRow freshId now r] })

/-! ## GET /check-for-jobs/:user_id -/

/-- The projection `SELECT id, lang, code, filename` returned to a polling
device. -/
structure JobClaimView where
  id : String
  lang : String
  code : String
  filename : String
deriving DecidableEq

/-- Handler `GET /check-for-jobs/:user_id`: takes the first `QUEUED` job assigned
to the device (a `LIMIT 1` scan in insertion order), marks every job with
that id `RUNNING` (SQL `UPDATE ... WHERE id = ?`), and returns the
projection; returns `none` (`{job: null}`) and leaves the state alone when
no such job exists. -/
def checkForJobs (user_id : String) (s : DBState) :
    Option JobClaimView × DBState :=
  match s.jobs.find? (fun j => j.device_id == user_id && j.status == "QUEUED") with
  | none => (none, s)
  | some j =>
    (some ⟨j.id, j.lang, j.code, j.filename⟩,
     { s with jobs := s.jobs.map (fun k =>
         if k.id == j.id then { k with status := "RUNNING" } else k) })

/-! ## POST /submit-job -/

/-- Body of a `POST /submit-job` request; `cost_usd = none` models an
absent (`undefined`) field. -/
structure SubmitReq where
  requester : String
  device_id : String
  filename : String
  lang : String
  code : String
  cost_usd : Option JSNum
deriving DecidableEq

inductive SubmitRes where
  | missingFields
  | badLang
  | invalidCost
  | ok (job_id : String)
deriving DecidableEq

/-- The cents conversion of the source:
`cost_usd < 0.01 ? Math.round(cost_usd*10000)/100 : Math.round(cost_usd*100)`. -/
def amountCentsOf (cost_usd : ℚ) : ℚ :=
  if cost_usd < 1/100 then (jsRound (cost_usd * 10000) : ℚ) / 100
  else (jsRound (cost_usd * 100) : ℚ)

/-- The sender half of the budget update: read the requester's row
(`SELECT spent_cents`), insert `(user, 0, 0)` if none was found, then
`UPDATE spent_cents = (senderBudget?.spent_cents || 0) - amount` on every
row of that user. -/
def sendPhase (u : String) (amount : ℚ) (l : List Budget) : List Budget :=
  ((match l.find? (fun x => x.user_id == u) with
    | none => l ++ [⟨u, 0, 0⟩]
    | some _ => l) : List Budget).map (fun x =>
     if x.user_id == u then
       { x with spent_cents :=
           ((match l.find? (fun x => x.user_id == u) with
             | some b0 => jsOrNum b0.spent_cents 0
             | none => 0) : ℚ) - amount }
     else x)

/-- The receiver half of the budget update: read the device user's row
(`SELECT earned_cents`), insert `(user, 0, 1000)` if none was found, then
`UPDATE earned_cents = (receiverBudget?.earned_cents || 1000) + amount` on
every row of that user. -/
def recvPhase (u : String) (amount : ℚ) (l : List Budget) : List Budget :=
  ((match l.find? (fun x => x.user_id == u) with
    | none => l ++ [⟨u, 0, 1000⟩]
    | some _ => l) : List Budget).map (fun x =>
     if x.user_id == u then
       { x with earned_cents :=
           ((match l.find? (fun x => x.user_id == u) with
             | some b0 => jsOrNum b0.earned_cents 1000
             | none => 1000) : ℚ) + amount }
     else x)

/-- Handler `POST /submit-job`.  `jobId` and `ledgerId` model the two
`Date.now() + random` ids, `epoch` the `Math.floor(Date.now()/1000)`
timestamp.  Mirrors the source statement by statement: job insert, device
`BUSY` update, cost validation (only now), ledger insert, then the two
read-check-insert-update budget steps (with their JavaScript `||`
fallbacks), the sender's against the pre-submission budgets and the
receiver's against the budgets left by the sender step. -/
def submitJob (jobId ledgerId epoch : String) (r : SubmitReq) (s : DBState) :
    SubmitRes × DBState :=
  if r.requester = "" ∨ r.device_id = "" ∨ r.filename = "" ∨ r.lang = "" ∨
      r.code = "" ∨ r.cost_usd = none then
    (SubmitRes.missingFields, s)
  else if r.lang ≠ "python" ∧ r.lang ≠ "javascript" then
    (SubmitRes.badLang, s)
  else
    let cost := r.cost_usd.getD JSNum.nan
    let job : Job := ⟨jobId, r.requester, r.device_id, r.filename, r.lang,
                      r.code, "QUEUED", cost, "", ""⟩
    let s1 := { s with jobs := s.jobs ++ [job] }
    let s2 := { s1 with devices := s1.devices.map (fun d =>
                  if d.user_id == r.device_id then { d with status := "BUSY" }
                  else d) }
    match cost with
    | JSNum.nan => (SubmitRes.invalidCost, s2)
    | JSNum.fin q =>
      let amount : ℚ := amountCentsOf q
      let s3 : DBState := { s2 with ledger := s2.ledger ++
                    [⟨ledgerId, jobId, r.requester, r.device_id, amount, epoch⟩] }
      let s7 : DBState := { s3 with
        budgets := recvPhase r.device_id amount
                     (sendPhase r.requester amount s3.budgets) }
      (SubmitRes.ok jobId, s7)

/-! ## POST /update-job -/

/-- Body of a `POST /update-job` request; `none` models an absent field. -/
structure UpdateReq where
  job_id : String
  stdout : Option String
  stderr : Option String
deriving DecidableEq

inductive UpdateRes where
  | missingJobId
  | success
deriving DecidableEq

/-- Handler `POST /update-job`: overwrites outputs and sets `FINISHED` on every job
matching `job_id`, then flips the job's device back to `ACTIVE` via the
subquery `WHERE user_id = (SELECT device_id FROM jobs WHERE id = ?)` (which
matches no device when the subquery is empty).  Always answers
`{success: true}` once `job_id` is present. -/
def updateJob (r : UpdateReq) (s : DBState) : UpdateRes × DBState :=
  if r.job_id = "" then (UpdateRes.missingJobId, s)
  else
    let s1 : DBState := { s with jobs := s.jobs.map (fun j =>
                  if j.id == r.job_id then
                    { j with stdoutt := r.stdout.getD "",
                             stderr := r.stderr.getD "",
                             status := "FINISHED" }
                  else j) }
    let s2 : DBState := match s1.jobs.find? (fun j => j.id == r.job_id) with
      | none => s1
      | some j => { s1 with devices := s1.devices.map (fun d =>
                      if d.user_id == j.device_id then
                        { d with status := "ACTIVE" }
                      else d) }
    (UpdateRes.success, s2)

/-! ## GET /jobs/:user_id and GET /get-budget/:user_id -/

/-- One row of the `GET /jobs/:user_id` response, as the ordered list of
(JSON key, value) pairs produced by
`SELECT id, filename, lang, status, stdoutt, stderr`. -/
def jobProjection (j : Job) : List (String × String) :=
  [("id", j.id), ("filename", j.filename), ("lang", j.lang),
   ("status", j.status), ("stdoutt", j.stdoutt), ("stderr", j.stderr)]

/-- Handler `GET /jobs/:user_id`: all jobs with `requester = user_id`, projected. -/
def listJobsForUser (user_id : String) (s : DBState) :
    List (List (String × String)) :=
  (s.jobs.filter (fun j => j.requester == user_id)).map jobProjection

/-- The `GET /get-budget/:user_id` response body. -/
structure BudgetView where
  spent_cents : ℚ
  earned_cents : ℚ
deriving DecidableEq

/-- Handler `GET /get-budget/:user_id`: the stored pair, or the `{0, 1000}` default
when no row exists; the state is returned untouched (the handler only
`SELECT`s). -/
def getBudget (user_id : String) (s : DBState) : BudgetView × DBState :=
  match s.budgets.find? (fun b => b.user_id == user_id) with
  | none => (⟨0, 1000⟩, s)
  | some b => (⟨b.spent_cents, b.earned_cents⟩, s)

/-! ## Derived quantities used by the claims -/

/-- Sum of `amount_cents` over the ledger entries whose `from_user` is `u`. -/
def ledgerSpentSum (u : String) (l : List LedgerEntry) : ℚ :=
  (l.filter (fun e => e.from_user == u)).foldr (fun e a => e.amount_cents + a) 0

/-- Sum of `amount_cents` over the ledger entries whose `to_user` is `u`. -/
def ledgerEarnedSum (u : String) (l : List LedgerEntry) : ℚ :=
  (l.filter (fun e => e.to_user == u)).foldr (fun e a => e.amount_cents + a) 0

/-- Numeric rank of a job status along the intended lifecycle. -/
def statusRank : String → Nat
  | "QUEUED" => 0
  | "RUNNING" => 1
  | "FINISHED" => 2
  | _ => 3

/-- Jobs only move forward: the job list keeps (at least) its rows, each
with its id, and no row's status rank decreases. -/
def jobsForward (l l' : List Job) : Prop :=
  l.length ≤ l'.length ∧
  ∀ i : Nat, ∀ h : i < l.length, ∀ h' : i < l'.length,
    (l'.get ⟨i, h'⟩).id = (l.get ⟨i, h⟩).id ∧
    statusRank (l.get ⟨i, h⟩).status ≤ statusRank (l'.get ⟨i, h'⟩).status

/-- At most one device row per `user_id`. -/
def atMostOneDevicePerUser (devs : List Device) : Prop :=
  (devs.map Device.user_id).Nodup

/-! ## Concrete test fixtures -/

/-- C1 fixture: user `A` submits a 5-cent job to user `B`. -/
def c1reqAB : SubmitReq := ⟨"A", "B", "f.py", "python", "x", some (JSNum.fin (1/20))⟩

/-- C1 fixture: user `B` then submits a 7-cent job back to user `A`. -/
def c1reqBA : SubmitReq := ⟨"B", "A", "g.py", "python", "y", some (JSNum.fin (7/100))⟩

/-- C1 fixture: the state after the first submission. -/
def c1mid : DBState := (submitJob "j1" "l1" "10" c1reqAB DBState.empty).2

/-- C1 fixture: the state after both submissions. -/
def c1end : DBState := (submitJob "j2" "l2" "20" c1reqBA c1mid).2

/-- C2 fixture: one registered `ACTIVE` device for user `B`. -/
def c2state : DBState :=
  ⟨[⟨"d0", "B", "http://b", 4, 1/2, 16, 8, 100, "ACTIVE", "t0"⟩], [], [], []⟩

/-- C2 fixture: a submission whose `cost_usd` is present but `NaN`. -/
def c2req : SubmitReq := ⟨"A", "B", "f.py", "python", "x", some JSNum.nan⟩

/-- C3 fixture: a single `QUEUED` job assigned to device user `B`. -/
def c3job : Job := ⟨"j3", "A", "B", "f.py", "python", "x", "QUEUED", JSNum.fin 1, "", ""⟩

/-- C3 fixture: state holding only that queued job. -/
def c3state : DBState := ⟨[], [c3job], [], []⟩

/-- C4 fixture: a single `QUEUED` job assigned to device user `B`. -/
def c4wJob : Job := ⟨"j4", "A", "B", "f.py", "python", "x", "QUEUED", JSNum.fin 1, "", ""⟩

/-- C4 fixture: state holding only that queued job. -/
def c4wState : DBState := ⟨[], [c4wJob], [], []⟩

/-- C5 fixture: one job, whose id is not the one update-job will name. -/
def c5wJob : Job := ⟨"j5", "A", "B", "f.py", "python", "x", "RUNNING", JSNum.fin 1, "", ""⟩

/-- C5 fixture: state holding only that job. -/
def c5wState : DBState := ⟨[], [c5wJob], [], []⟩

/-- C8 fixture: an existing device row for user `B`. -/
def c8wDev : Device := ⟨"d8", "B", "http://old", 2, 1/4, 8, 4, 50, "ACTIVE", "t8"⟩

/-- C8 fixture: state holding only that device row. -/
def c8wState : DBState := ⟨[c8wDev], [], [], []⟩

/-- C8 fixture: a fresh heartbeat for user `B` with new resource values. -/
def c8wReq : HeartbeatReq := ⟨"B", "http://new", 4, 1/2, 16, 8, 100, "ACTIVE"⟩

/-- C9 fixture: one job of requester `A` with captured output. -/
def c9job : Job := ⟨"j9", "A", "B", "f.py", "python", "x", "QUEUED", JSNum.fin 1, "out1", "err1"⟩

/-- C9 fixture: state holding only that job. -/
def c9state : DBState := ⟨[], [c9job], [], []⟩

/-- C10 fixture: a valid submission naming device user `B`. -/
def c10wReq : SubmitReq := ⟨"A", "B", "f.py", "python", "x", some (JSNum.fin (1/20))⟩

/-! ## Helper lemmas -/

lemma floor_eq_rat_floor (q : ℚ) : ⌊q⌋ = Rat.floor q := rfl

lemma jsRound_eq_of (q : ℚ) (n : ℤ) (h1 : (n : ℚ) ≤ q + 1/2) (h2 : q + 1/2 < n + 1) :
    jsRound q = n := by
  rw [jsRound, ← floor_eq_rat_floor]
  exact Int.floor_eq_iff.mpr ⟨h1, h2⟩

lemma map_if_not {α : Type} (p : α → Bool) (g : α → α) (l : List α)
    (h : ∀ x ∈ l, p x = false) :
    l.map (fun x => if p x then g x else x) = l := by
  induction l with
  | nil => rfl
  | cons a t ih =>
    rw [List.map_cons, if_neg (by simp [h a (List.mem_cons_self a t)]),
      ih (fun x hx => h x (List.mem_cons_of_mem a hx))]

lemma find?_map_update {α : Type} (p : α → Bool) (g : α → α)
    (hg : ∀ x, p (g x) = p x) (l : List α) :
    (l.map (fun x => if p x then g x else x)).find? p = (l.find? p).map g := by
  induction l with
  | nil => rfl
  | cons a t ih =>
    cases hpa : p a with
    | false => simp [List.find?_cons, hpa, ih]
    | true => simp [List.find?_cons, hpa, hg]

lemma find?_map_invariant {α : Type} (p : α → Bool) (f : α → α) (l : List α)
    (h1 : ∀ x, p x = true → f x = x) (h2 : ∀ x, p (f x) = p x) :
    (l.map f).find? p = l.find? p := by
  induction l with
  | nil => rfl
  | cons a t ih =>
    by_cases hpa : p a = true
    · rw [List.map_cons, h1 a hpa, List.find?_cons_of_pos _ hpa,
        List.find?_cons_of_pos _ hpa]
    · have hpa' : p a = false := by simpa using hpa
      rw [List.map_cons, List.find?_cons_of_neg _ (by simp [h2, hpa']),
        List.find?_cons_of_neg _ (by simp [hpa']), ih]

lemma find?_decomp {α : Type} (p : α → Bool) (l : List α) (a : α)
    (h : l.find? p = some a) :
    p a = true ∧ ∃ l1 l2, l = l1 ++ a :: l2 ∧ ∀ x ∈ l1, p x = false := by
  induction l with
  | nil => cases h
  | cons b t ih =>
    by_cases hpb : p b = true
    · rw [List.find?_cons_of_pos _ hpb] at h
      cases h
      exact ⟨hpb, [], t, rfl, by simp⟩
    · have hpb' : p b = false := by simpa using hpb
      rw [List.find?_cons_of_neg _ (by simp [hpb'])] at h
      obtain ⟨hpa, l1, l2, hdec, hall⟩ := ih h
      refine ⟨hpa, b :: l1, l2, by rw [hdec]; rfl, ?_⟩
      intro x hx
      rcases List.mem_cons.mp hx with rfl | hx2
      · exact hpb'
      · exact hall x hx2

/-! ## C6: cents conversion -/

/-- C6 (counterexample): the claim asserts the stored `amount_cents` is
always an integer; at `cost_usd = 0.005` the code computes
`Math.round(0.005*10000)/100 = 50/100 = 1/2`, whose denominator is `2`, so
the stored value is not an integer. -/
theorem c6_counterexample :
    amountCentsOf (1/200) = 1/2 ∧ (amountCentsOf (1/200)).den = 2 := by
  have ha : amountCentsOf (1/200) = 1/2 := by
    rw [amountCentsOf, if_pos (by norm_num : (1/200 : ℚ) < 1/100),
      jsRound_eq_of (1/200 * 10000) 50 (by norm_num) (by norm_num)]
    norm_num
  exact ⟨ha, by rw [ha]; norm_num⟩

/-- C6 (amended): the stored `amount_cents` is `round(cost_usd*100)`,
an integer, when `cost_usd ≥ 0.01`, and `round(cost_usd*10000)/100`, which
need not be an integer, when `cost_usd < 0.01`; in particular
`cost_usd = 0.005` stores exactly `50/100 = 1/2`. -/
theorem c6_amended :
    (∀ q : ℚ, 1/100 ≤ q →
      amountCentsOf q = (jsRound (q * 100) : ℚ) ∧ (amountCentsOf q).den = 1) ∧
    (∀ q : ℚ, q < 1/100 →
      amountCentsOf q = (jsRound (q * 10000) : ℚ) / 100) ∧
    amountCentsOf (1/200) = 1/2 := by
  refine ⟨fun q h => ?_, fun q h => ?_, ?_⟩
  · rw [amountCentsOf, if_neg (not_lt.mpr h)]
    exact ⟨rfl, Rat.den_intCast _⟩
  · rw [amountCentsOf, if_pos h]
  · rw [amountCentsOf, if_pos (by norm_num : (1/200 : ℚ) < 1/100),
      jsRound_eq_of (1/200 * 10000) 50 (by norm_num) (by norm_num)]
    norm_num

/-- C6 witness: the amended theorem applied at `cost_usd = 0.02`. -/
theorem c6_witness : amountCentsOf (2/100) = 2 ∧ (amountCentsOf (2/100)).den = 1 := by
  have h := c6_amended.1 (2/100) (by norm_num)
  refine ⟨?_, h.2⟩
  rw [h.1, jsRound_eq_of (2/100 * 100) 2 (by norm_num) (by norm_num)]
  norm_num

/-! ## C7: budget query -/

/-- C7: `GetBudget(user_id)` returns the stored
`{spent_cents, earned_cents}` when a budget row for `user_id` exists (the
first one in table order), returns exactly `{0, 1000}` when no row exists,
and never mutates any table (the returned state is the input state). -/
theorem c7_get_budget (u : String) (s : DBState) :
    (getBudget u s).2 = s ∧
    (s.budgets.find? (fun b => b.user_id == u) = none →
      (getBudget u s).1 = ⟨0, 1000⟩) ∧
    (∀ b : Budget, s.budgets.find? (fun b => b.user_id == u) = some b →
      b.user_id = u ∧ (getBudget u s).1 = ⟨b.spent_cents, b.earned_cents⟩) := by
  refine ⟨?_, ?_, ?_⟩
  · rcases h2 : s.budgets.find? (fun b => b.user_id == u) with _ | b <;>
      simp [getBudget, h2]
  · intro h
    simp [getBudget, h]
  · intro b hb
    have hbu : b.user_id = u := by simpa using List.find?_some hb
    exact ⟨hbu, by simp [getBudget, hb]⟩

/-- C7 witness: a never-seen user on the empty database gets exactly
`{spent_cents: 0, earned_cents: 1000}` and the state is untouched. -/
theorem c7_witness :
    (getBudget "alice" DBState.empty).1 = ⟨0, 1000⟩ ∧
    (getBudget "alice" DBState.empty).2 = DBState.empty :=
  ⟨(c7_get_budget "alice" DBState.empty).2.1 rfl,
   (c7_get_budget "alice" DBState.empty).1⟩

lemma amountCentsOf_five : amountCentsOf (1/20) = 5 := by
  rw [amountCentsOf, if_neg (by norm_num : ¬ (1/20 : ℚ) < 1/100),
    jsRound_eq_of (1/20 * 100) 5 (by norm_num) (by norm_num)]
  norm_num

lemma amountCentsOf_seven : amountCentsOf (7/100) = 7 := by
  rw [amountCentsOf, if_neg (by norm_num : ¬ (7/100 : ℚ) < 1/100),
    jsRound_eq_of (7/100 * 100) 7 (by norm_num) (by norm_num)]
  norm_num

lemma c1mid_eq : c1mid = ⟨[],
    [⟨"j1", "A", "B", "f.py", "python", "x", "QUEUED", JSNum.fin (1/20), "", ""⟩],
    [⟨"l1", "j1", "A", "B", 5, "10"⟩],
    [⟨"A", -5, 0⟩, ⟨"B", 0, 1005⟩]⟩ := by
  simp [c1mid, submitJob, sendPhase, recvPhase, c1reqAB, DBState.empty, jsOrNum]
  norm_num [amountCentsOf_five]

/-! ## C1: ledger-budget consistency -/

/-- C1 (code bug): after `A` submits 5 cents to `B`, user `A`'s budget
row exists with `spent_cents = -5` and `earned_cents = 0` — it was created
by the sender branch with a `0` earned baseline.  After `B` then submits
7 cents to `A`, the ledger total received by `A` is `7`, so the claim
requires `A.earned_cents = 0 + 7 = 7`; the code instead stores `1007`,
because `receiverBudget?.earned_cents || 1000` treats the stored `0` as
missing and re-applies the 1000-cent baseline.  (The `spent_cents` half of
the claim holds here: `-5 = -(5)`.) -/
theorem c1_code_bug :
    c1mid.budgets = [⟨"A", -5, 0⟩, ⟨"B", 0, 1005⟩] ∧
    c1end.budgets = [⟨"A", -5, 1007⟩, ⟨"B", -7, 1005⟩] ∧
    ledgerEarnedSum "A" c1end.ledger = 7 ∧
    ledgerSpentSum "A" c1end.ledger = 5 := by
  have hend : c1end.budgets = [⟨"A", -5, 1007⟩, ⟨"B", -7, 1005⟩] := by
    rw [c1end, c1mid_eq]
    simp [submitJob, sendPhase, recvPhase, c1reqBA, jsOrNum]
    norm_num [amountCentsOf_seven]
  have hled : c1end.ledger = [⟨"l1", "j1", "A", "B", 5, "10"⟩,
      ⟨"l2", "j2", "B", "A", 7, "20"⟩] := by
    rw [c1end, c1mid_eq]
    simp [submitJob, sendPhase, recvPhase, c1reqBA, jsOrNum]
    norm_num [amountCentsOf_seven]
  refine ⟨by rw [c1mid_eq], hend, ?_, ?_⟩ <;>
    simp [hled, ledgerEarnedSum, ledgerSpentSum]

/-! ## C2: submit-job atomicity -/

/-- C2 (code bug): a submission whose `cost_usd` is `NaN` is rejected
with the `ValidationError` response, but only after the job row was
inserted and the device was set `BUSY`; nothing is rolled back, so a
`QUEUED` job remains with no ledger entry and no budget rows, and the
device stays `BUSY` — the state is not left unchanged. -/
theorem c2_code_bug :
    (submitJob "j1" "l1" "7" c2req c2state).1 = SubmitRes.invalidCost ∧
    (submitJob "j1" "l1" "7" c2req c2state).2.jobs =
      [⟨"j1", "A", "B", "f.py", "python", "x", "QUEUED", JSNum.nan, "", ""⟩] ∧
    (submitJob "j1" "l1" "7" c2req c2state).2.ledger = [] ∧
    (submitJob "j1" "l1" "7" c2req c2state).2.budgets = [] ∧
    (submitJob "j1" "l1" "7" c2req c2state).2.devices =
      [⟨"d0", "B", "http://b", 4, 1/2, 16, 8, 100, "BUSY", "t0"⟩] := by
  simp [submitJob, c2req, c2state]

/-! ## C5: update-job with an unknown job id -/

/-- C5 (code bug, first half of the claim): when `job_id` is present
but matches no job row, `UpdateJob` mutates nothing — the returned state
is the input state — yet it answers `{success: true}`, not a NotFound
response as the claim requires. -/
theorem c5_unknown_job (r : UpdateReq) (s : DBState)
    (h1 : r.job_id ≠ "")
    (h2 : ∀ j ∈ s.jobs, j.id ≠ r.job_id) :
    updateJob r s = (UpdateRes.success, s) := by
  have hmap : s.jobs.map (fun j => if j.id == r.job_id then
      { j with stdoutt := r.stdout.getD "", stderr := r.stderr.getD "",
               status := "FINISHED" } else j) = s.jobs :=
    map_if_not _ _ _ (fun j hj => by simp [h2 j hj])
  have hfind : s.jobs.find? (fun j => j.id == r.job_id) = none :=
    List.find?_eq_none.mpr (fun j hj => by simp [h2 j hj])
  simp only [updateJob, if_neg h1, hmap, hfind]

/-- C5 witness: on a store holding only job `j5`, an update naming
`zzz` returns success and the state is exactly the input state. -/
theorem c5_witness :
    updateJob ⟨"zzz", none, none⟩ c5wState = (UpdateRes.success, c5wState) :=
  c5_unknown_job _ _ (by decide)
    (by intro j hj
        simp [c5wState] at hj
        subst hj
        decide)

/-! ## C3: job lifecycle -/

/-- C3 (counterexample): `UpdateJob` on a job that is still `QUEUED`
sets it directly to `FINISHED`, skipping `RUNNING` — the claim that no
operation makes a job skip a state is false. -/
theorem c3_counterexample :
    c3state.jobs.map Job.status = ["QUEUED"] ∧
    (updateJob ⟨"j3", some "out", some "err"⟩ c3state).1 = UpdateRes.success ∧
    (updateJob ⟨"j3", some "out", some "err"⟩ c3state).2.jobs.map Job.status =
      ["FINISHED"] := by
  refine ⟨by simp [c3state, c3job], ?_, ?_⟩ <;> simp [updateJob, c3state, c3job]

/-! ## C9: job listing projection -/

/-- C9 (counterexample): the jobs listing for requester `A` returns the
single matching job, but the captured-output field is keyed `stdoutt` (the
literal column name used by every SQL statement of the source), not
`stdout` as the claim states. -/
theorem c9_counterexample :
    listJobsForUser "A" c9state =
      [[("id", "j9"), ("filename", "f.py"), ("lang", "python"),
        ("status", "QUEUED"), ("stdoutt", "out1"), ("stderr", "err1")]] ∧
    ¬ ("stdout" ∈ (jobProjection c9job).map Prod.fst) := by
  constructor
  · simp [listJobsForUser, c9state, c9job, jobProjection]
  · decide

/-- C9 (amended): `ListJobsForUser(user_id)` returns exactly the jobs
whose `requester` equals `user_id`, each projected to the six fields, with
the response field names `id`, `filename`, `lang`, `status`, `stdoutt`
(sic — the source's column name) and `stderr`. -/
theorem c9_amended (u : String) (s : DBState) :
    (∀ j ∈ s.jobs, j.requester = u → jobProjection j ∈ listJobsForUser u s) ∧
    (∀ row ∈ listJobsForUser u s,
      ∃ j, j ∈ s.jobs ∧ j.requester = u ∧ row = jobProjection j) ∧
    (∀ j : Job, (jobProjection j).map Prod.fst =
      ["id", "filename", "lang", "status", "stdoutt", "stderr"]) := by
  refine ⟨fun j hj hr => ?_, fun row hrow => ?_, fun j => rfl⟩
  · unfold listJobsForUser
    exact List.mem_map_of_mem _ (List.mem_filter.mpr ⟨hj, by simp [hr]⟩)
  · unfold listJobsForUser at hrow
    obtain ⟨j, hj, rfl⟩ := List.mem_map.mp hrow
    have hm := List.mem_filter.mp hj
    exact ⟨j, hm.1, by simpa using hm.2, rfl⟩

/-- C9 witness: the amended theorem applied to the fixture store. -/
theorem c9_witness : jobProjection c9job ∈ listJobsForUser "A" c9state :=
  (c9_amended "A" c9state).1 c9job (by simp [c9state]) rfl

/-! ## C4: claiming a queued job -/

/-- C4: under the data-model invariant that job ids are unique, if no
`QUEUED` job is assigned to the polling device the call returns
`{job: null}` and the state is unchanged; otherwise it picks the oldest
(first in insertion order) `QUEUED` job assigned to the device, returns its
`{id, lang, code, filename}` projection, sets exactly that job to
`RUNNING`, and touches no other row and no other table. -/
theorem c4_check_for_jobs (u : String) (s : DBState)
    (hids : (s.jobs.map Job.id).Nodup) :
    ((∀ j ∈ s.jobs, ¬(j.device_id = u ∧ j.status = "QUEUED")) →
      checkForJobs u s = (none, s)) ∧
    (∀ j : Job,
      s.jobs.find? (fun k => k.device_id == u && k.status == "QUEUED") = some j →
      j.device_id = u ∧ j.status = "QUEUED" ∧
      (checkForJobs u s).1 = some ⟨j.id, j.lang, j.code, j.filename⟩ ∧
      (checkForJobs u s).2.devices = s.devices ∧
      (checkForJobs u s).2.ledger = s.ledger ∧
      (checkForJobs u s).2.budgets = s.budgets ∧
      ∃ l1 l2, s.jobs = l1 ++ j :: l2 ∧
        (∀ k ∈ l1, ¬(k.device_id = u ∧ k.status = "QUEUED")) ∧
        (checkForJobs u s).2.jobs = l1 ++ ({ j with status := "RUNNING" } :: l2)) := by
  constructor
  · intro h
    have hfind : s.jobs.find? (fun k => k.device_id == u && k.status == "QUEUED")
        = none :=
      List.find?_eq_none.mpr (fun k hk => by simpa using h k hk)
    unfold checkForJobs
    rw [hfind]
  · intro j hfind
    have hp := List.find?_some hfind
    simp only [Bool.and_eq_true, beq_iff_eq] at hp
    obtain ⟨hp1, l1, l2, hdec, hall⟩ :=
      find?_decomp (fun k => k.device_id == u && k.status == "QUEUED") s.jobs j hfind
    have hids2 : ((l1.map Job.id) ++ j.id :: (l2.map Job.id)).Nodup := by
      rw [hdec, List.map_append, List.map_cons] at hids
      exact hids
    have hmid := List.nodup_middle.mp hids2
    have hnot : j.id ∉ l1.map Job.id ++ l2.map Job.id := (List.nodup_cons.mp hmid).1
    have hl1 : ∀ k ∈ l1, k.id ≠ j.id := by
      intro k hk he
      exact hnot (List.mem_append_left _ (he ▸ List.mem_map_of_mem Job.id hk))
    have hl2 : ∀ k ∈ l2, k.id ≠ j.id := by
      intro k hk he
      exact hnot (List.mem_append_right _ (he ▸ List.mem_map_of_mem Job.id hk))
    refine ⟨hp.1, hp.2, ?_⟩
    unfold checkForJobs
    rw [hfind]
    refine ⟨rfl, rfl, rfl, rfl, l1, l2, hdec, ?_, ?_⟩
    · intro k hk hc
      have := hall k hk
      simp only [Bool.and_eq_true, beq_iff_eq] at this
      simp [hc.1, hc.2] at this
    · show s.jobs.map (fun k =>
          if k.id == j.id then { k with status := "RUNNING" } else k) = _
      rw [hdec, List.map_append, List.map_cons,
        map_if_not _ _ l1 (fun k hk => by simp [hl1 k hk]),
        map_if_not _ _ l2 (fun k hk => by simp [hl2 k hk]),
        if_pos (by simp)]

/-- C4 witness: on a store with one queued job `j4` for device `B`,
the poll returns that job's projection and leaves the device table
unchanged. -/
theorem c4_witness :
    (checkForJobs "B" c4wState).1 = some ⟨"j4", "python", "x", "f.py"⟩ ∧
    (checkForJobs "B" c4wState).2.devices = [] := by
  have h := (c4_check_for_jobs "B" c4wState (by simp [c4wState, c4wJob])).2
    c4wJob (by simp [c4wState, c4wJob, List.find?_cons])
  exact ⟨by rw [h.2.2.1]; rfl, h.2.2.2.1⟩

lemma atMostOne_map (f : Device → Device) (hf : ∀ d, (f d).user_id = d.user_id)
    (l : List Device) (h : atMostOneDevicePerUser l) :
    atMostOneDevicePerUser (l.map f) := by
  unfold atMostOneDevicePerUser at h ⊢
  have hc : List.map (Device.user_id ∘ f) l = List.map Device.user_id l :=
    List.map_congr_left (fun d _ => hf d)
  rwa [List.map_map, hc]

lemma filter_map_none (u : String) (newD : Device) (l : List Device)
    (h : ∀ d ∈ l, d.user_id ≠ u) :
    (l.map (fun d => if d.user_id == u then newD else d)).filter
      (fun d => d.user_id == u) = [] := by
  rw [map_if_not _ _ l (fun d hd => by simp [h d hd])]
  exact List.filter_eq_nil_iff.mpr (fun d hd => by simp [h d hd])

lemma filter_map_replace (u : String) (newD : Device) (hn : newD.user_id = u)
    (l : List Device) (h : atMostOneDevicePerUser l)
    (hex : ∃ d ∈ l, d.user_id = u) :
    (l.map (fun d => if d.user_id == u then newD else d)).filter
      (fun d => d.user_id == u) = [newD] := by
  induction l with
  | nil => obtain ⟨d, hd, _⟩ := hex; cases hd
  | cons a t ih =>
    unfold atMostOneDevicePerUser at h
    rw [List.map_cons, List.nodup_cons] at h
    by_cases ha : a.user_id = u
    · rw [List.map_cons, if_pos (by simp [ha]), List.filter_cons_of_pos (by simp [hn])]
      have ht : ∀ d ∈ t, d.user_id ≠ u := by
        intro d hd he
        exact h.1 (ha ▸ he ▸ List.mem_map_of_mem Device.user_id hd)
      rw [filter_map_none u newD t ht]
    · rw [List.map_cons, if_neg (by simp [ha]), List.filter_cons_of_neg (by simp [ha])]
      refine ih h.2 ?_
      obtain ⟨d, hd, hdu⟩ := hex
      rcases List.mem_cons.mp hd with rfl | hd2
      · exact absurd hdu ha
      · exact ⟨d, hd2, hdu⟩

lemma checkForJobs_devices (u : String) (s : DBState) :
    (checkForJobs u s).2.devices = s.devices := by
  rcases h : s.jobs.find? (fun j => j.device_id == u && j.status == "QUEUED") with _ | j <;>
    simp [checkForJobs, h]

lemma submitJob_devices (jid lid ep : String) (req : SubmitReq) (s : DBState) :
    (submitJob jid lid ep req s).2.devices = s.devices ∨
    (submitJob jid lid ep req s).2.devices = s.devices.map (fun d =>
      if d.user_id == req.device_id then { d with status := "BUSY" } else d) := by
  unfold submitJob
  split
  · exact Or.inl rfl
  · split
    · exact Or.inl rfl
    · dsimp only
      split
      · exact Or.inr rfl
      · exact Or.inr rfl

lemma updateJob_devices (r : UpdateReq) (s : DBState) :
    (updateJob r s).2.devices = s.devices ∨
    ∃ uid, (updateJob r s).2.devices = s.devices.map (fun d =>
      if d.user_id == uid then { d with status := "ACTIVE" } else d) := by
  unfold updateJob
  split
  · exact Or.inl rfl
  · dsimp only
    split
    · exact Or.inl rfl
    · rename_i j hj
      exact Or.inr ⟨j.device_id, rfl⟩

/-! ## C8: heartbeat registry -/

/-- C8: starting from a registry with at most one device row per
`user_id`, a successful heartbeat leaves exactly one row for that
`user_id` — the row whose fields are the request's values together with
the freshly generated id and timestamp — and every state-changing
operation (heartbeat, submit-job, check-for-jobs, update-job, get-budget)
preserves the at-most-one-row-per-user invariant. -/
theorem c8_heartbeat (fid now : String) (r : HeartbeatReq) (s : DBState)
    (hs : atMostOneDevicePerUser s.devices) :
    (atMostOneDevicePerUser (heartbeat fid now r s).2.devices ∧
      ((heartbeat fid now r s).1 = HeartbeatRes.success →
        (heartbeat fid now r s).2.devices.filter
          (fun d => d.user_id == r.user_id) = [heartbeatRow fid now r])) ∧
    (∀ jid lid ep req,
      atMostOneDevicePerUser (submitJob jid lid ep req s).2.devices) ∧
    (∀ u, atMostOneDevicePerUser (checkForJobs u s).2.devices) ∧
    (∀ req, atMostOneDevicePerUser (updateJob req s).2.devices) ∧
    (∀ u, atMostOneDevicePerUser (getBudget u s).2.devices) := by
  refine ⟨?_, ?_, ?_, ?_, ?_⟩
  · by_cases hv : (r.user_id = "" ∨ r.url = "" ∨ r.cpu_cores = 0 ∨ r.cpu_load = 0 ∨
        r.ram_total = 0 ∨ r.ram_used = 0 ∨ r.disk_free = 0 ∨ r.status = "")
    · have hres : heartbeat fid now r s = (HeartbeatRes.missingFields, s) := by
        simp only [heartbeat, if_pos hv]
      rw [hres]
      exact ⟨hs, fun hcon => by cases hcon⟩
    · rcases hf : s.devices.find? (fun d => d.user_id == r.user_id) with _ | d0
      · have hnotin : ∀ d ∈ s.devices, d.user_id ≠ r.user_id :=
          fun d hd => by simpa using List.find?_eq_none.mp hf d hd
        have hres : heartbeat fid now r s = (HeartbeatRes.success,
            { s with devices := s.devices ++ [heartbeatRow fid now r] }) := by
          simp only [heartbeat, if_neg hv, hf]
        rw [hres]
        constructor
        · unfold atMostOneDevicePerUser at hs ⊢
          rw [List.map_append, List.nodup_append]
          refine ⟨hs, by simp, ?_⟩
          intro a ha hb
          obtain ⟨d, hd, rfl⟩ := List.mem_map.mp ha
          have : d.user_id = (heartbeatRow fid now r).user_id := by simpa using hb
          exact hnotin d hd this
        · intro _
          rw [List.filter_append,
            List.filter_eq_nil_iff.mpr (fun d hd => by simp [hnotin d hd]),
            List.filter_cons_of_pos (by simp [heartbeatRow])]
          rfl
      · have hex : ∃ d ∈ s.devices, d.user_id = r.user_id :=
          ⟨d0, List.mem_of_find?_eq_some hf, by simpa using List.find?_some hf⟩
        have hres : heartbeat fid now r s = (HeartbeatRes.success,
            { s with devices := s.devices.map (fun d =>
                if d.user_id == r.user_id then heartbeatRow fid now r else d) }) := by
          simp only [heartbeat, if_neg hv, hf]
        rw [hres]
        constructor
        · exact atMostOne_map _
            (fun d => by by_cases hd : d.user_id = r.user_id <;> simp [hd, heartbeatRow])
            _ hs
        · intro _
          exact filter_map_replace r.user_id (heartbeatRow fid now r) rfl s.devices hs hex
  · intro jid lid ep req
    rcases submitJob_devices jid lid ep req s with h | h <;> rw [h]
    · exact hs
    · exact atMostOne_map _
        (fun d => by by_cases hd : d.user_id = req.device_id <;> simp [hd]) _ hs
  · intro u
    rw [checkForJobs_devices]
    exact hs
  · intro req
    rcases updateJob_devices req s with h | ⟨uid, h⟩ <;> rw [h]
    · exact hs
    · exact atMostOne_map _
        (fun d => by by_cases hd : d.user_id = uid <;> simp [hd]) _ hs
  · intro u
    rcases h : s.budgets.find? (fun b => b.user_id == u) with _ | b <;>
      · simp only [getBudget, h]
        exact hs

/-- C8 witness: a heartbeat for user `B`, whose row already exists,
leaves exactly one `B` row carrying the new values, id and timestamp. -/
theorem c8_witness :
    (heartbeat "d9" "t9" c8wReq c8wState).2.devices.filter
      (fun d => d.user_id == c8wReq.user_id) = [heartbeatRow "d9" "t9" c8wReq] := by
  refine (c8_heartbeat "d9" "t9" c8wReq c8wState ?_).1.2 ?_
  · simp [c8wState, c8wDev, atMostOneDevicePerUser]
  · norm_num [heartbeat, c8wReq, c8wState, c8wDev, List.find?_cons]
    rw [if_neg (by decide)]

lemma jobsForward_refl (l : List Job) : jobsForward l l :=
  ⟨le_refl _, fun _ _ _ => ⟨rfl, le_refl _⟩⟩

lemma jobsForward_append (l l2 : List Job) : jobsForward l (l ++ l2) := by
  refine ⟨by simp, fun i h h2 => ?_⟩
  have hg : (l ++ l2).get ⟨i, h2⟩ = l.get ⟨i, h⟩ := by
    simp [List.get_eq_getElem, List.getElem_append_left h]
  exact ⟨by rw [hg], by rw [hg]⟩

lemma jobsForward_of_map (f : Job → Job) (l : List Job)
    (h : ∀ k ∈ l, (f k).id = k.id ∧
      statusRank k.status ≤ statusRank (f k).status) :
    jobsForward l (l.map f) := by
  refine ⟨by simp, fun i hi hi2 => ?_⟩
  have hg : (l.map f).get ⟨i, hi2⟩ = f (l.get ⟨i, hi⟩) := by
    simp [List.get_eq_getElem, List.getElem_map]
  have hm : l.get ⟨i, hi⟩ ∈ l := l.get_mem _ _
  exact ⟨by rw [hg]; exact (h _ hm).1, by rw [hg]; exact (h _ hm).2⟩

lemma heartbeat_jobs (fid now : String) (r : HeartbeatReq) (s : DBState) :
    (heartbeat fid now r s).2.jobs = s.jobs := by
  unfold heartbeat
  split
  · rfl
  · split <;> rfl

lemma submitJob_jobs (jid lid ep : String) (r : SubmitReq) (s : DBState) :
    (submitJob jid lid ep r s).2.jobs = s.jobs ∨
    ∃ nj : Job, (submitJob jid lid ep r s).2.jobs = s.jobs ++ [nj] := by
  unfold submitJob
  split
  · exact Or.inl rfl
  · split
    · exact Or.inl rfl
    · dsimp only
      split
      · exact Or.inr ⟨_, rfl⟩
      · exact Or.inr ⟨_, rfl⟩

lemma updateJob_jobs (r : UpdateReq) (s : DBState) :
    (updateJob r s).2.jobs = s.jobs ∨
    (updateJob r s).2.jobs = s.jobs.map (fun j =>
      if j.id == r.job_id then
        { j with stdoutt := r.stdout.getD "", stderr := r.stderr.getD "",
                 status := "FINISHED" } else j) := by
  unfold updateJob
  split
  · exact Or.inl rfl
  · dsimp only
    split
    · exact Or.inr rfl
    · exact Or.inr rfl

/-- C3 (amended): under the data-model invariants (unique job ids,
statuses drawn from `{QUEUED, RUNNING, FINISHED}`), no operation ever
moves a job's status backward — each existing row keeps its id and its
status rank never decreases — but `UpdateJob` sets `FINISHED`
unconditionally, so a `QUEUED` job can skip `RUNNING` and move directly to
`FINISHED` (see the counterexample). -/
theorem c3_amended (s : DBState)
    (hids : (s.jobs.map Job.id).Nodup)
    (hst : ∀ j ∈ s.jobs, statusRank j.status ≤ 2) :
    (∀ fid now r, jobsForward s.jobs (heartbeat fid now r s).2.jobs) ∧
    (∀ u, jobsForward s.jobs (checkForJobs u s).2.jobs) ∧
    (∀ jid lid ep r, jobsForward s.jobs (submitJob jid lid ep r s).2.jobs) ∧
    (∀ r, jobsForward s.jobs (updateJob r s).2.jobs) := by
  refine ⟨?_, ?_, ?_, ?_⟩
  · intro fid now r
    rw [heartbeat_jobs]
    exact jobsForward_refl _
  · intro u
    rcases hf : s.jobs.find? (fun j => j.device_id == u && j.status == "QUEUED")
      with _ | j
    · have hres : (checkForJobs u s).2.jobs = s.jobs := by simp [checkForJobs, hf]
      rw [hres]
      exact jobsForward_refl _
    · have hres : (checkForJobs u s).2.jobs = s.jobs.map (fun k =>
          if k.id == j.id then { k with status := "RUNNING" } else k) := by
        simp [checkForJobs, hf]
      rw [hres]
      apply jobsForward_of_map
      intro k hk
      by_cases hid : (k.id == j.id) = true
      · have hkj : k = j :=
          List.inj_on_of_nodup_map hids hk (List.mem_of_find?_eq_some hf)
            (by simpa using hid)
        have hq := List.find?_some hf
        simp only [Bool.and_eq_true, beq_iff_eq] at hq
        refine ⟨by simp [hid], ?_⟩
        rw [if_pos hid, hkj, hq.2]
        show statusRank "QUEUED" ≤ statusRank "RUNNING"
        decide
      · have hid2 : (k.id == j.id) = false := by simpa using hid
        exact ⟨by simp [hid2], by simp [hid2]⟩
  · intro jid lid ep r
    rcases submitJob_jobs jid lid ep r s with h | ⟨nj, h⟩ <;> rw [h]
    · exact jobsForward_refl _
    · exact jobsForward_append _ _
  · intro r
    rcases updateJob_jobs r s with h | h <;> rw [h]
    · exact jobsForward_refl _
    · apply jobsForward_of_map
      intro k hk
      by_cases hid : (k.id == r.job_id) = true
      · refine ⟨by simp [hid], ?_⟩
        rw [if_pos hid]
        have h2 : statusRank "FINISHED" = 2 := by decide
        show statusRank k.status ≤ statusRank "FINISHED"
        rw [h2]
        exact hst k hk
      · have hid2 : (k.id == r.job_id) = false := by simpa using hid
        exact ⟨by simp [hid2], by simp [hid2]⟩

/-- C3 witness: the amended no-backward-move theorem applied to the
fixture store and the update that finishes job `j3`. -/
theorem c3_witness :
    jobsForward c3state.jobs (updateJob ⟨"j3", none, none⟩ c3state).2.jobs :=
  (c3_amended c3state (by simp [c3state, c3job])
    (by intro j hj
        simp [c3state] at hj
        subst hj
        decide)).2.2.2 ⟨"j3", none, none⟩

lemma find?_map_pres {α : Type} (p : α → Bool) (f : α → α)
    (h : ∀ x, p (f x) = p x) (l : List α) :
    (l.map f).find? p = (l.find? p).map f := by
  induction l with
  | nil => rfl
  | cons a t ih =>
    cases hpa : p a with
    | false =>
      rw [List.map_cons, List.find?_cons_of_neg _ (by simp [h, hpa]),
        List.find?_cons_of_neg _ (by simp [hpa]), ih]
    | true =>
      rw [List.map_cons, List.find?_cons_of_pos _ (by simp [h, hpa]),
        List.find?_cons_of_pos _ hpa]
      rfl

lemma find?_append_some {α : Type} (p : α → Bool) (l l2 : List α) (a : α)
    (h : l.find? p = some a) : (l ++ l2).find? p = some a := by
  rw [List.find?_append, h]
  rfl

lemma find?_append_none {α : Type} (p : α → Bool) (l l2 : List α)
    (h : l.find? p = none) : (l ++ l2).find? p = l2.find? p := by
  rw [List.find?_append, h]
  rfl

lemma updSpent_user (u : String) (v : ℚ) (x : Budget) :
    (if x.user_id == u then { x with spent_cents := v } else x).user_id
      = x.user_id := by
  by_cases h : (x.user_id == u) = true <;> simp [h]

lemma updEarn_user (u : String) (v : ℚ) (x : Budget) :
    (if x.user_id == u then { x with earned_cents := v } else x).user_id
      = x.user_id := by
  by_cases h : (x.user_id == u) = true <;> simp [h]

lemma updSpent_earned (u : String) (v : ℚ) (x : Budget) :
    (if x.user_id == u then { x with spent_cents := v } else x).earned_cents
      = x.earned_cents := by
  by_cases h : (x.user_id == u) = true <;> simp [h]

lemma updEarn_spent (u : String) (v : ℚ) (x : Budget) :
    (if x.user_id == u then { x with earned_cents := v } else x).spent_cents
      = x.spent_cents := by
  by_cases h : (x.user_id == u) = true <;> simp [h]

lemma sendPhase_find_self (u : String) (a : ℚ) (l : List Budget) :
    ∃ b : Budget,
      (sendPhase u a l).find? (fun x => x.user_id == u) = some b ∧
      b.spent_cents = ((match l.find? (fun x => x.user_id == u) with
        | some b0 => jsOrNum b0.spent_cents 0
        | none => 0) : ℚ) - a := by
  unfold sendPhase
  rcases hf : l.find? (fun x => x.user_id == u) with _ | b0 <;> rw [hf] <;>
    rw [find?_map_pres _ _ (fun x => by rw [updSpent_user]) _]
  · rw [find?_append_none _ _ _ hf, List.find?_cons_of_pos _ (by simp)]
    exact ⟨_, rfl, by simp⟩
  · have hb0 : b0.user_id = u := by simpa using List.find?_some hf
    rw [hf]
    exact ⟨_, rfl, by simp [hb0]⟩

lemma recvPhase_find_self (u : String) (a : ℚ) (l : List Budget) :
    ∃ b : Budget,
      (recvPhase u a l).find? (fun x => x.user_id == u) = some b ∧
      b.earned_cents = ((match l.find? (fun x => x.user_id == u) with
        | some b0 => jsOrNum b0.earned_cents 1000
        | none => 1000) : ℚ) + a := by
  unfold recvPhase
  rcases hf : l.find? (fun x => x.user_id == u) with _ | b0 <;> rw [hf] <;>
    rw [find?_map_pres _ _ (fun x => by rw [updEarn_user]) _]
  · rw [find?_append_none _ _ _ hf, List.find?_cons_of_pos _ (by simp)]
    exact ⟨_, rfl, by simp⟩
  · have hb0 : b0.user_id = u := by simpa using List.find?_some hf
    rw [hf]
    exact ⟨_, rfl, by simp [hb0]⟩

lemma recvPhase_spent_view (u w : String) (a : ℚ) (l : List Budget) (b : Budget)
    (h : l.find? (fun x => x.user_id == w) = some b) :
    ∃ c : Budget,
      (recvPhase u a l).find? (fun x => x.user_id == w) = some c ∧
      c.spent_cents = b.spent_cents := by
  unfold recvPhase
  rcases hf : l.find? (fun x => x.user_id == u) with _ | b0 <;> rw [hf] <;>
    rw [find?_map_pres _ _ (fun x => by rw [updEarn_user]) _]
  · rw [find?_append_some _ _ _ _ h]
    exact ⟨_, rfl, updEarn_spent _ _ _⟩
  · rw [h]
    exact ⟨_, rfl, updEarn_spent _ _ _⟩

lemma sendPhase_earned_view (u w : String) (a : ℚ) (l : List Budget) :
    ((match (sendPhase u a l).find? (fun x => x.user_id == w) with
      | some b0 => jsOrNum b0.earned_cents 1000
      | none => 1000) : ℚ) =
    ((match l.find? (fun x => x.user_id == w) with
      | some b0 => jsOrNum b0.earned_cents 1000
      | none => 1000) : ℚ) := by
  unfold sendPhase
  rcases hf : l.find? (fun x => x.user_id == u) with _ | b0 <;> rw [hf] <;>
    rw [find?_map_pres _ _ (fun x => by rw [updSpent_user]) _]
  · rcases hw : l.find? (fun x => x.user_id == w) with _ | c
    · rw [find?_append_none _ _ _ hw]
      by_cases huw : u = w
      · subst huw
        rw [List.find?_cons_of_pos _ (by simp)]
        simp [jsOrNum, hw]
      · rw [List.find?_cons_of_neg _ (by simp [huw])]
        simp [hw]
    · rw [find?_append_some _ _ _ _ hw]
      simp only [hw, Option.map_some]
      by_cases hcu : c.user_id = u <;> simp [hcu]
  · rcases hw : l.find? (fun x => x.user_id == w) with _ | c <;> rw [hw]
    · rfl
    · simp only [Option.map_some]
      by_cases hcu : c.user_id = u <;> simp [hcu]

/-! ## C10: submission to an unregistered device -/

/-- C10: a valid submission whose `device_id` matches no device row
still succeeds — the handler never checks that the device exists.  It
returns `ok` with the new job id, leaves the device table unchanged (the
`BUSY` update matches no row), appends the `QUEUED` job and the ledger
entry, and updates both budget rows: afterwards the requester's first
budget row carries `spent_cents = (prior spent ‖ 0) - amount` and the
device user's first budget row carries
`earned_cents = (prior earned ‖ 1000) + amount` (lazily created rows
included); no NotFound error is raised. -/
theorem c10_submit_no_device_check (jid lid ep : String) (r : SubmitReq)
    (s : DBState) (q : ℚ)
    (h1 : r.requester ≠ "") (h2 : r.device_id ≠ "") (h3 : r.filename ≠ "")
    (h4 : r.lang = "python" ∨ r.lang = "javascript") (h5 : r.code ≠ "")
    (h6 : r.cost_usd = some (JSNum.fin q))
    (hdev : ∀ d ∈ s.devices, d.user_id ≠ r.device_id) :
    (submitJob jid lid ep r s).1 = SubmitRes.ok jid ∧
    (submitJob jid lid ep r s).2.devices = s.devices ∧
    (submitJob jid lid ep r s).2.jobs = s.jobs ++
      [⟨jid, r.requester, r.device_id, r.filename, r.lang, r.code, "QUEUED",
        JSNum.fin q, "", ""⟩] ∧
    (submitJob jid lid ep r s).2.ledger = s.ledger ++
      [⟨lid, jid, r.requester, r.device_id, amountCentsOf q, ep⟩] ∧
    (∃ b : Budget,
      (submitJob jid lid ep r s).2.budgets.find?
        (fun x => x.user_id == r.requester) = some b ∧
      b.spent_cents = ((match s.budgets.find? (fun x => x.user_id == r.requester) with
        | some b0 => jsOrNum b0.spent_cents 0
        | none => 0) : ℚ) - amountCentsOf q) ∧
    (∃ b : Budget,
      (submitJob jid lid ep r s).2.budgets.find?
        (fun x => x.user_id == r.device_id) = some b ∧
      b.earned_cents = ((match s.budgets.find? (fun x => x.user_id == r.device_id) with
        | some b0 => jsOrNum b0.earned_cents 1000
        | none => 1000) : ℚ) + amountCentsOf q) := by
  have hlang : r.lang ≠ "" := by rcases h4 with h | h <;> simp [h]
  have hv : ¬(r.requester = "" ∨ r.device_id = "" ∨ r.filename = "" ∨
      r.lang = "" ∨ r.code = "" ∨ r.cost_usd = none) := by
    simp [h1, h2, h3, hlang, h5, h6]
  have hnb : ¬(r.lang ≠ "python" ∧ r.lang ≠ "javascript") := by
    rcases h4 with h | h <;> simp [h]
  have hres : submitJob jid lid ep r s = (SubmitRes.ok jid,
      { devices := s.devices.map (fun d =>
          if d.user_id == r.device_id then { d with status := "BUSY" } else d),
        jobs := s.jobs ++ [⟨jid, r.requester, r.device_id, r.filename, r.lang,
          r.code, "QUEUED", JSNum.fin q, "", ""⟩],
        ledger := s.ledger ++ [⟨lid, jid, r.requester, r.device_id,
          amountCentsOf q, ep⟩],
        budgets := recvPhase r.device_id (amountCentsOf q)
          (sendPhase r.requester (amountCentsOf q) s.budgets) }) := by
    unfold submitJob
    rw [if_neg hv, if_neg hnb, h6]
    rfl
  refine ⟨by rw [hres], ?_, by rw [hres], by rw [hres], ?_, ?_⟩
  · rw [hres]
    exact map_if_not _ _ _ (fun d hd => by simp [hdev d hd])
  · obtain ⟨b, hb1, hb2⟩ :=
      sendPhase_find_self r.requester (amountCentsOf q) s.budgets
    obtain ⟨c, hc1, hc2⟩ := recvPhase_spent_view r.device_id r.requester
      (amountCentsOf q) _ b hb1
    exact ⟨c, by rw [hres]; exact hc1, by rw [hc2, hb2]⟩
  · obtain ⟨b, hb1, hb2⟩ := recvPhase_find_self r.device_id (amountCentsOf q)
      (sendPhase r.requester (amountCentsOf q) s.budgets)
    refine ⟨b, by rw [hres]; exact hb1, ?_⟩
    rw [hb2, sendPhase_earned_view]

/-- C10 witness: submitting to device user `B` on the empty database
(so no device row exists at all) returns `ok` and leaves the device table
empty. -/
theorem c10_witness :
    (submitJob "j10" "l10" "30" c10wReq DBState.empty).1 = SubmitRes.ok "j10" ∧
    (submitJob "j10" "l10" "30" c10wReq DBState.empty).2.devices = [] := by
  have h := c10_submit_no_device_check "j10" "l10" "30" c10wReq DBState.empty
    (1/20) (by decide) (by decide) (by decide) (Or.inl rfl) (by decide) rfl
    (by intro d hd; simp [DBState.empty] at hd)
  exact ⟨h.1, h.2.1⟩
